import Mathlib

/-!
Verification of the iron-condor signal bot (`src/strategy.py`, `src/main.py`).

Prices, premiums and strikes are modelled as exact rationals (`ℚ`); Python's
`round` builtin (banker's rounding, round half to even) is modelled by `rhe`.
Skip reasons, which the source renders as f-strings, are modelled as an
inductive type carrying the interpolated numeric values, one constructor per
distinct gate.
-/

namespace NiftyBot

set_option maxRecDepth 40000

/-- Python's one-argument `round`: round half to even (banker's rounding). -/
def rhe (q : ℚ) : ℤ :=
  if q - ⌊q⌋ < 1/2 then ⌊q⌋
  else if 1/2 < q - ⌊q⌋ then ⌊q⌋ + 1
  else if ⌊q⌋ % 2 = 0 then ⌊q⌋ else ⌊q⌋ + 1

/-- Python's `round(x, 2)`: round half to even at two decimal places. -/
def round2 (q : ℚ) : ℚ := (rhe (q * 100) : ℚ) / 100

/-- `strategy.round_to_strike`: `int(round(price / step) * step)`. -/
def round_to_strike (price : ℚ) (step : ℤ := 50) : ℤ :=
  rhe (price / step) * step

/-- Python's `min(xs, key=f)`: first element of `xs` with minimal key.
Ties keep the earlier element, because the fold only replaces on strict `<`. -/
def argminFirst (f : α → ℚ) : List α → Option α
  | [] => none
  | x :: xs => some (xs.foldl (fun b a => if f a < f b then a else b) x)

/-- Python's `max(xs, key=f)`: first element of `xs` with maximal key. -/
def argmaxFirst (f : α → ℚ) : List α → Option α
  | [] => none
  | x :: xs => some (xs.foldl (fun b a => if f b < f a then a else b) x)

/-- Insert into an ascending list, keeping it ascending. -/
def insertSorted (x : ℚ) : List ℚ → List ℚ
  | [] => [x]
  | y :: ys => if x ≤ y then x :: y :: ys else y :: insertSorted x ys

/-- Python's `sorted(...)` on a list of numbers.  On a totally ordered type of
plain values the ascending reordering is unique, so insertion sort computes the
same function as the source's sort. -/
def pySorted (l : List ℚ) : List ℚ := l.foldr insertSorted []

/-! ## Data model (`nse_data._extract_strikes` row shape, `strategy.py`) -/

/-- One row of the option-chain ladder:
`{"strike", "ce_ltp", "pe_ltp", "ce_oi", "pe_oi"}`. -/
structure StrikeQuote where
  strike : ℚ
  ce_ltp : ℚ
  pe_ltp : ℚ
  ce_oi  : ℚ
  pe_oi  : ℚ
deriving DecidableEq

/-- The snapshot dict handed to `build_iron_condor`:
`{"spot", "expiry", "strikes", "source"}`.  `source` is the provenance tag
(`"nse"` / `"synthetic"` / ...); `build_iron_condor` never reads it. -/
structure Chain where
  spot    : ℚ
  expiry  : String
  strikes : List StrikeQuote
  source  : String
deriving DecidableEq

/-- `strategy.IronCondorSignal` dataclass. -/
structure IronCondorSignal where
  spot : ℚ
  vix : ℚ
  pcr : ℚ
  expiry : String
  sell_ce_strike : ℚ
  buy_ce_strike : ℚ
  sell_pe_strike : ℚ
  buy_pe_strike : ℚ
  sell_ce_prem : ℚ
  buy_ce_prem : ℚ
  sell_pe_prem : ℚ
  buy_pe_prem : ℚ
  net_premium : ℚ
  spread_width : ℤ
  max_profit : ℚ
  max_loss : ℚ
  target_exit : ℚ
  stop_loss : ℚ
  max_pain : ℚ
  ce_wall : ℚ
  pe_wall : ℚ
  signal_score : ℕ
  signal_grade : String
deriving DecidableEq

/-- The distinct skip-reason strings of `build_iron_condor`, one constructor
per gate, carrying the values the source interpolates into the f-string. -/
inductive SkipReason where
  | vixTooHigh (vix : ℚ)
  | vixTooLow (vix : ℚ)
  | notEnoughStrikes
  | ceWingTooLow (prem : ℚ)
  | peWingTooLow (prem : ℚ)
  | netPremiumTooLow (net : ℚ)
deriving DecidableEq

/-- Result of `build_iron_condor`: `(signal, "")`, `(None, reason)`, or an
uncaught exception (`min` of an empty ladder in `find_atm`). -/
inductive BuildResult where
  | sig (s : IronCondorSignal)
  | skip (r : SkipReason)
  | err
deriving DecidableEq

def BuildResult.getSig : BuildResult → Option IronCondorSignal
  | .sig s => some s
  | _ => none

/-! ## `strategy.py` functions -/

def MIN_VIX : ℚ := 10
def MAX_VIX : ℚ := 18
def MIN_NET_PREMIUM : ℚ := 40
def MIN_WING_PREM : ℚ := 15
def SPREAD_WIDTH : ℤ := 100

/-- `strategy.find_atm`: strike minimizing `abs(strike - spot)`; `none` models
the `ValueError` Python's `min` raises on an empty ladder. -/
def find_atm (spot : ℚ) (strikes : List StrikeQuote) : Option ℚ :=
  argminFirst (fun x => |x - spot|) (strikes.map (·.strike))

/-- Writer loss at candidate strike `target` (body of `find_max_pain`). -/
def painLoss (strikes : List StrikeQuote) (target : ℚ) : ℚ :=
  (strikes.map (fun s => max 0 (target - s.strike) * s.ce_oi)).sum
  + (strikes.map (fun s => max 0 (s.strike - target) * s.pe_oi)).sum

/-- `strategy.find_max_pain`: the first strike (in ladder iteration order,
matching dict insertion order) whose loss is minimal.  Duplicate strikes have
identical losses, so folding over the raw strike list agrees with the
source's dict keyed by strike. -/
def find_max_pain (strikes : List StrikeQuote) : Option ℚ :=
  argminFirst (painLoss strikes) (strikes.map (·.strike))

/-- `strategy.find_oi_walls`: strikes with max CE OI and max PE OI
(first occurrence wins ties, as Python's `max`). -/
def find_oi_walls (strikes : List StrikeQuote) : Option (ℚ × ℚ) :=
  match argmaxFirst (·.ce_oi) strikes, argmaxFirst (·.pe_oi) strikes with
  | some c, some p => some (c.strike, p.strike)
  | _, _ => none

/-- `strategy.get_strike_data`: first row whose strike matches, else the
empty dict (modelled as `none`). -/
def get_strike_data (strikes : List StrikeQuote) (strike : ℚ) : Option StrikeQuote :=
  strikes.find? (fun s => s.strike = strike)

/-- `strategy.score_signal`. -/
def score_signal (vix pcr net_premium ce_wall pe_wall sell_ce sell_pe : ℚ) :
    ℕ × String :=
  let score0 : ℕ := 0
  let score1 := score0 +
    (if 12 ≤ vix ∧ vix ≤ 16 then 30
     else if (10 ≤ vix ∧ vix < 12) ∨ (16 < vix ∧ vix ≤ 18) then 15 else 0)
  let score2 := score1 +
    (if (9:ℚ)/10 ≤ pcr ∧ pcr ≤ 13/10 then 20
     else if ((7:ℚ)/10 ≤ pcr ∧ pcr < 9/10) ∨ ((13:ℚ)/10 < pcr ∧ pcr ≤ 15/10)
     then 10 else 0)
  let score3 := score2 +
    (if 80 ≤ net_premium then 25
     else if 55 ≤ net_premium then 20
     else if 40 ≤ net_premium then 10 else 0)
  let score4 := score3 + (if sell_ce ≤ ce_wall then 15 else 0)
  let score5 := score4 + (if pe_wall ≤ sell_pe then 10 else 0)
  let grade := if 70 ≤ score5 then "A" else if 50 ≤ score5 then "B" else "C"
  (score5, grade)

/-! Named intermediate values of `build_iron_condor`, one per source line,
so the claims can state hypotheses about the gates. -/

/-- `available = sorted([s["strike"] for s in strikes])`. -/
def availableOf (c : Chain) : List ℚ := pySorted (c.strikes.map (·.strike))

/-- `atm_idx = available.index(atm) if atm in available else -1`. -/
def atmIdxOf (c : Chain) (atm : ℚ) : ℤ :=
  if atm ∈ availableOf c then ((availableOf c).indexOf atm : ℤ) else -1

def sellCeStrikeOf (c : Chain) (atm : ℚ) : ℚ :=
  (availableOf c).getD (atmIdxOf c atm + 1).toNat 0

def sellPeStrikeOf (c : Chain) (atm : ℚ) : ℚ :=
  (availableOf c).getD (atmIdxOf c atm - 1).toNat 0

def buyCeStrikeOf (c : Chain) (atm : ℚ) : ℚ :=
  (round_to_strike (sellCeStrikeOf c atm + SPREAD_WIDTH) : ℚ)

def buyPeStrikeOf (c : Chain) (atm : ℚ) : ℚ :=
  (round_to_strike (sellPeStrikeOf c atm - SPREAD_WIDTH) : ℚ)

/-- `sell_ce_prem = sc.get("ce_ltp", 0)` after `get_strike_data`. -/
def cePremAt (c : Chain) (strike : ℚ) : ℚ :=
  ((get_strike_data c.strikes strike).map (·.ce_ltp)).getD 0

def pePremAt (c : Chain) (strike : ℚ) : ℚ :=
  ((get_strike_data c.strikes strike).map (·.pe_ltp)).getD 0

def sellCePremOf (c : Chain) (atm : ℚ) : ℚ := cePremAt c (sellCeStrikeOf c atm)
def buyCePremOf (c : Chain) (atm : ℚ) : ℚ := cePremAt c (buyCeStrikeOf c atm)
def sellPePremOf (c : Chain) (atm : ℚ) : ℚ := pePremAt c (sellPeStrikeOf c atm)
def buyPePremOf (c : Chain) (atm : ℚ) : ℚ := pePremAt c (buyPeStrikeOf c atm)

/-- `net_premium = round((sell_ce_prem - buy_ce_prem) + (sell_pe_prem - buy_pe_prem), 2)`. -/
def netPremiumOf (c : Chain) (atm : ℚ) : ℚ :=
  round2 ((sellCePremOf c atm - buyCePremOf c atm)
          + (sellPePremOf c atm - buyPePremOf c atm))

/-- The fully populated `IronCondorSignal` built once every gate has passed. -/
def mkSignal (c : Chain) (vix pcr atm : ℚ) : IronCondorSignal :=
  let net := netPremiumOf c atm
  let mp := (find_max_pain c.strikes).getD 0
  let walls := (find_oi_walls c.strikes).getD (0, 0)
  let sg := score_signal vix pcr net walls.1 walls.2
              (sellCeStrikeOf c atm) (sellPeStrikeOf c atm)
  { spot := c.spot, vix := vix, pcr := pcr, expiry := c.expiry
    sell_ce_strike := sellCeStrikeOf c atm
    buy_ce_strike := buyCeStrikeOf c atm
    sell_pe_strike := sellPeStrikeOf c atm
    buy_pe_strike := buyPeStrikeOf c atm
    sell_ce_prem := sellCePremOf c atm
    buy_ce_prem := buyCePremOf c atm
    sell_pe_prem := sellPePremOf c atm
    buy_pe_prem := buyPePremOf c atm
    net_premium := net
    spread_width := SPREAD_WIDTH
    max_profit := round2 (net * 50)
    max_loss := round2 ((SPREAD_WIDTH - net) * 50)
    target_exit := round2 (net * (2/5))
    stop_loss := round2 (net * 2)
    max_pain := mp
    ce_wall := walls.1
    pe_wall := walls.2
    signal_score := sg.1
    signal_grade := sg.2 }

/-- `strategy.build_iron_condor`. -/
def build_iron_condor (c : Chain) (vix pcr : ℚ) : BuildResult :=
  if MAX_VIX < vix then .skip (.vixTooHigh vix)
  else if vix < MIN_VIX then .skip (.vixTooLow vix)
  else
    match find_atm c.spot c.strikes with
    | none => .err
    | some atm =>
      if atmIdxOf c atm < 2 ∨ ((availableOf c).length : ℤ) - 3 < atmIdxOf c atm then
        .skip .notEnoughStrikes
      else if sellCePremOf c atm < MIN_WING_PREM then
        .skip (.ceWingTooLow (sellCePremOf c atm))
      else if sellPePremOf c atm < MIN_WING_PREM then
        .skip (.peWingTooLow (sellPePremOf c atm))
      else if netPremiumOf c atm < MIN_NET_PREMIUM then
        .skip (.netPremiumTooLow (netPremiumOf c atm))
      else
        .sig (mkSignal c vix pcr atm)

/-! ## `main.py`: position store and exit monitor -/

/-- The dict written by `main.save_position` to `/tmp/open_position.json`. -/
structure PositionRec where
  sell_ce_strike : ℚ
  buy_ce_strike : ℚ
  sell_pe_strike : ℚ
  buy_pe_strike : ℚ
  net_premium : ℚ
  target_exit : ℚ
  stop_loss : ℚ
  expiry : String
deriving DecidableEq

/-- `main.save_position`: the projection of a signal persisted to the slot. -/
def save_position (s : IronCondorSignal) (expiry : String) : PositionRec :=
  { sell_ce_strike := s.sell_ce_strike
    buy_ce_strike := s.buy_ce_strike
    sell_pe_strike := s.sell_pe_strike
    buy_pe_strike := s.buy_pe_strike
    net_premium := s.net_premium
    target_exit := s.target_exit
    stop_loss := s.stop_loss
    expiry := expiry }

/-- Contents of the position file, abstracting the raw bytes: `valid p` is a
file that `json.load` parses to the record `p`, `corrupt` is a file on which
`json.load` raises `json.JSONDecodeError`. -/
inductive SlotContent where
  | valid (p : PositionRec)
  | corrupt
deriving DecidableEq

/-- The single-slot store: `none` is a missing file. -/
abbrev Slot := Option SlotContent

/-- Exceptions that can escape the store operations. -/
inductive StoreError where
  | jsonDecodeError
deriving DecidableEq

/-- `main.load_position`: `try: json.load(open(...)) except FileNotFoundError:
return None`.  Only the missing-file exception is caught; a decode error on a
corrupt file propagates to the caller. -/
def load_position (slot : Slot) : Except StoreError (Option PositionRec) :=
  match slot with
  | none => .ok none
  | some (.valid p) => .ok (some p)
  | some .corrupt => .error .jsonDecodeError

/-- `main.clear_position`: `os.remove` with `FileNotFoundError` swallowed, so
it succeeds from every starting state and leaves the slot empty. -/
def clear_position (slot : Slot) : Except StoreError Slot :=
  match slot with
  | _ => .ok none

/-- `ltp` inside `main.get_current_premium`: first row matching the strike,
projected on the requested side; `0.0` when the strike is absent. -/
def ltp (strikes : List StrikeQuote) (strike : ℚ) (ce : Bool) : ℚ :=
  match strikes.find? (fun s => s.strike = strike) with
  | some s => if ce then s.ce_ltp else s.pe_ltp
  | none => 0

/-- `main.get_current_premium`. -/
def get_current_premium (c : Chain) (pos : PositionRec) : ℚ :=
  let sc := ltp c.strikes pos.sell_ce_strike true
  let bc := ltp c.strikes pos.buy_ce_strike true
  let sp := ltp c.strikes pos.sell_pe_strike false
  let bp := ltp c.strikes pos.buy_pe_strike false
  round2 ((sc - bc) + (sp - bp))

/-- The 15:15 cutoff of `run_exit`, in microseconds of the local day:
`now.replace(hour=15, minute=15, second=0, microsecond=0)`. -/
def CUTOFF_MICROS : ℕ := (15 * 3600 + 15 * 60) * 1000000

/-- `force_exit = now >= now.replace(hour=15, minute=15, second=0,
microsecond=0)`; the date parts agree, so only the time of day compares. -/
def force_exit (nowMicros : ℕ) : Bool := CUTOFF_MICROS ≤ nowMicros

/-- The decision taken by `main.run_exit` (which exit branch fires, if any). -/
inductive ExitDecision where
  | timeExit
  | targetHit
  | stopLossHit
  | hold
deriving DecidableEq

/-- The `exit_reason` if-chain of `main.run_exit`, with `hold` for the case
where no reason is set and the position is kept. -/
def run_exit_decision (c : Chain) (pos : PositionRec) (nowMicros : ℕ) :
    ExitDecision :=
  let current_premium := get_current_premium c pos
  if force_exit nowMicros then .timeExit
  else if current_premium ≤ pos.target_exit then .targetHit
  else if pos.stop_loss ≤ current_premium then .stopLossHit
  else .hold

/-! ## Concrete inputs used to instantiate the claims -/

/-- A chain with an empty ladder: reaching any later gate on it would raise,
so the volatility gate firing on it shows that gate runs first. -/
def chEmptyW : Chain := { spot := 0, expiry := "E", strikes := [], source := "nse" }

/-- Ladder row constructor for the concrete chains. -/
def mkQuote (strike ce pe ceoi peoi : ℚ) : StrikeQuote :=
  { strike := strike, ce_ltp := ce, pe_ltp := pe, ce_oi := ceoi, pe_oi := peoi }

/-- Step-50 ladder around spot 400 with sold-leg premiums 20/22 and bought-leg
premiums 5/6: wings pass, net premium `(20-5)+(22-6) = 31 < 40`. -/
def chNetLow : Chain :=
  { spot := 400, expiry := "E", source := "nse",
    strikes := [mkQuote 250 90 6 1 1, mkQuote 300 60 12 1 1,
                mkQuote 350 40 22 1 1, mkQuote 400 30 30 1 1,
                mkQuote 450 20 40 1 1, mkQuote 500 10 60 1 1,
                mkQuote 550 5 90 1 1] }

/-- Step-50 ladder around spot 400 with rich premiums: net premium
`(45-10)+(48-12) = 71`, so every gate passes and a Signal is produced. -/
def chRich : Chain :=
  { spot := 400, expiry := "E", source := "nse",
    strikes := [mkQuote 250 90 12 1 1, mkQuote 300 60 20 1 1,
                mkQuote 350 40 48 1 1, mkQuote 400 30 30 1 1,
                mkQuote 450 45 40 1 1, mkQuote 500 20 60 1 1,
                mkQuote 550 10 90 1 1] }

/-- A ladder whose strikes are not all multiples of 50: ATM is 200, the sold
call strike is 225, and `round_to_strike(225 + 100) = 300`, so the call-side
spread is 75 points, not `SPREAD_WIDTH`. -/
def chOff : Chain :=
  { spot := 200, expiry := "E", source := "nse",
    strikes := [mkQuote 100 90 6 1 1, mkQuote 150 60 48 1 1,
                mkQuote 200 50 30 1 1, mkQuote 225 45 20 1 1,
                mkQuote 300 10 12 1 1, mkQuote 350 5 8 1 1,
                mkQuote 400 2 5 1 1] }

/-- Two-strike ladder with a max-pain tie: both candidate strikes have
aggregate loss 200, so the scan must keep the earlier strike 100. -/
def tieLadder : List StrikeQuote :=
  [mkQuote 100 0 0 2 0, mkQuote 200 0 0 0 2]

/-- One-row chain giving a current premium of 50 for `posBoth`. -/
def chPrem : Chain :=
  { spot := 400, expiry := "E", source := "nse",
    strikes := [mkQuote 450 50 0 1 1] }

/-- A stored position whose target (100) and stop-loss (5) are BOTH satisfied
at current premium 50, so only the priority order decides the exit reason. -/
def posBoth : PositionRec :=
  { sell_ce_strike := 450, buy_ce_strike := 550, sell_pe_strike := 350,
    buy_pe_strike := 250, net_premium := 71, target_exit := 100,
    stop_loss := 5, expiry := "E" }

/-! ## Shared lemmas -/

theorem rhe_intCast (n : ℤ) : rhe (n : ℚ) = n := by
  unfold rhe
  simp [Int.floor_intCast]

theorem rhe_bounds (q : ℚ) : |(rhe q : ℚ) - q| ≤ 1/2 := by
  unfold rhe
  have h0 : ((⌊q⌋ : ℤ) : ℚ) ≤ q := Int.floor_le q
  have h1 : q < ⌊q⌋ + 1 := Int.lt_floor_add_one q
  split_ifs with hc1 hc2 hc3 <;> rw [abs_le] <;> push_cast <;>
    constructor <;> linarith

theorem round2_intMul {q : ℚ} {n : ℤ} (h : q * 100 = (n : ℚ)) :
    round2 q = q := by
  unfold round2
  rw [h, rhe_intCast]
  rw [← h]
  ring

theorem round2_bounds (q : ℚ) : |round2 q - q| ≤ 1/200 := by
  unfold round2
  have h := rhe_bounds (q * 100)
  rw [abs_le] at h ⊢
  constructor <;> [linarith [h.1]; linarith [h.2]]

theorem round2_num (q : ℚ) : ∃ k : ℤ, round2 q = (k : ℚ) / 100 :=
  ⟨rhe (q * 100), rfl⟩

theorem foldl_min_split (f : α → ℚ) (l : List α) (acc : α) :
    ∃ l₁ l₂,
      acc :: l = l₁ ++ (l.foldl (fun b a => if f a < f b then a else b) acc) :: l₂
      ∧ (∀ y ∈ l₁, f (l.foldl (fun b a => if f a < f b then a else b) acc) < f y)
      ∧ (∀ y ∈ acc :: l, f (l.foldl (fun b a => if f a < f b then a else b) acc) ≤ f y) := by
  induction l generalizing acc with
  | nil =>
    refine ⟨[], [], by simp, by simp, ?_⟩
    intro y hy
    simp at hy
    simp [hy]
  | cons a t ih =>
    by_cases hfa : f a < f acc
    · have hstep : (a :: t).foldl (fun b a => if f a < f b then a else b) acc
          = t.foldl (fun b a => if f a < f b then a else b) a := by
        simp [List.foldl_cons, if_pos hfa]
      obtain ⟨m₁, m₂, heq, hpre, hmin⟩ := ih a
      refine ⟨acc :: m₁, m₂, ?_, ?_, ?_⟩
      · rw [hstep]
        simpa using congrArg (acc :: ·) heq
      · intro y hy
        rw [hstep]
        rcases List.mem_cons.mp hy with rfl | hy'
        · have : f (t.foldl (fun b a => if f a < f b then a else b) a) ≤ f a :=
            hmin a (by simp)
          linarith
        · exact hpre y hy'
      · intro y hy
        rw [hstep]
        rcases List.mem_cons.mp hy with rfl | hy'
        · have : f (t.foldl (fun b a => if f a < f b then a else b) a) ≤ f a :=
            hmin a (by simp)
          linarith
        · exact hmin y hy'
    · have hstep : (a :: t).foldl (fun b a => if f a < f b then a else b) acc
          = t.foldl (fun b a => if f a < f b then a else b) acc := by
        simp [List.foldl_cons, if_neg hfa]
      obtain ⟨m₁, m₂, heq, hpre, hmin⟩ := ih acc
      cases m₁ with
      | nil =>
        simp only [List.nil_append] at heq
        injection heq with h1 h2
        refine ⟨[], a :: t, by simp [hstep, h1.symm], by simp, ?_⟩
        intro y hy
        rw [hstep, ← h1]
        rcases List.mem_cons.mp hy with rfl | hy'
        · exact le_refl _
        rcases List.mem_cons.mp hy' with rfl | hy''
        · exact le_of_not_lt hfa
        · have := hmin y (by simp [hy''])
          rw [← h1] at this
          exact this
      | cons b m₁' =>
        simp only [List.cons_append] at heq
        injection heq with h1 h2
        refine ⟨acc :: a :: m₁', m₂, ?_, ?_, ?_⟩
        · rw [hstep]
          simp [List.cons_append]
          exact h2
        · intro y hy
          rw [hstep]
          have hacc : f (t.foldl (fun b a => if f a < f b then a else b) acc) < f acc := by
            have := hpre b (by simp)
            rw [← h1] at this
            exact this
          rcases List.mem_cons.mp hy with rfl | hy'
          · exact hacc
          rcases List.mem_cons.mp hy' with rfl | hy''
          · exact lt_of_lt_of_le hacc (le_of_not_lt hfa)
          · exact hpre y (by simp [hy''])
        · intro y hy
          rw [hstep]
          have haccle : f (t.foldl (fun b a => if f a < f b then a else b) acc) ≤ f acc :=
            hmin acc (by simp)
          rcases List.mem_cons.mp hy with rfl | hy'
          · exact haccle
          rcases List.mem_cons.mp hy' with rfl | hy''
          · exact le_trans haccle (le_of_not_lt hfa)
          · exact hmin y (by simp [hy''])

theorem argminFirst_spec (f : α → ℚ) (l : List α) (a : α)
    (h : argminFirst f l = some a) :
    a ∈ l ∧ (∀ y ∈ l, f a ≤ f y) ∧ ∃ l₁ l₂, l = l₁ ++ a :: l₂ ∧ ∀ y ∈ l₁, f a < f y := by
  cases l with
  | nil => simp [argminFirst] at h
  | cons x xs =>
    have ha : xs.foldl (fun b a => if f a < f b then a else b) x = a := by
      simpa [argminFirst] using h
    obtain ⟨l₁, l₂, heq, hpre, hmin⟩ := foldl_min_split f xs x
    rw [ha] at heq hpre hmin
    refine ⟨?_, hmin, l₁, l₂, heq, hpre⟩
    rw [heq]
    exact List.mem_append.mpr (Or.inr (by simp))

/-- Inversion of `build_iron_condor`: a produced Signal records that every
gate passed and that the signal is the one assembled from the intermediates. -/
theorem build_sig_inv {c : Chain} {vix pcr : ℚ} {s : IronCondorSignal}
    (h : build_iron_condor c vix pcr = .sig s) :
    ∃ atm, find_atm c.spot c.strikes = some atm ∧
      vix ≤ MAX_VIX ∧ MIN_VIX ≤ vix ∧
      2 ≤ atmIdxOf c atm ∧ atmIdxOf c atm ≤ ((availableOf c).length : ℤ) - 3 ∧
      MIN_WING_PREM ≤ sellCePremOf c atm ∧ MIN_WING_PREM ≤ sellPePremOf c atm ∧
      MIN_NET_PREMIUM ≤ netPremiumOf c atm ∧
      s = mkSignal c vix pcr atm := by
  unfold build_iron_condor at h
  split at h
  · simp at h
  split at h
  · simp at h
  rename_i h1 h2
  split at h
  · simp at h
  rename_i atm hatm
  split at h
  · simp at h
  rename_i h3
  split at h
  · simp at h
  rename_i h4
  split at h
  · simp at h
  rename_i h5
  split at h
  · simp at h
  rename_i h6
  refine ⟨atm, hatm, le_of_not_lt h1, le_of_not_lt h2,
    not_lt.mp (not_or.mp h3).1, not_lt.mp (not_or.mp h3).2,
    le_of_not_lt h4, le_of_not_lt h5, le_of_not_lt h6, ?_⟩
  injection h with h'
  exact h'.symm

/-- Introduction rule for `build_iron_condor`: when every gate passes, the
result is the Signal assembled from the intermediates. -/
theorem build_sig_intro (c : Chain) (vix pcr atm : ℚ)
    (h1 : vix ≤ MAX_VIX) (h2 : MIN_VIX ≤ vix)
    (hatm : find_atm c.spot c.strikes = some atm)
    (h3 : 2 ≤ atmIdxOf c atm)
    (h4 : atmIdxOf c atm ≤ ((availableOf c).length : ℤ) - 3)
    (h5 : MIN_WING_PREM ≤ sellCePremOf c atm)
    (h6 : MIN_WING_PREM ≤ sellPePremOf c atm)
    (h7 : MIN_NET_PREMIUM ≤ netPremiumOf c atm) :
    build_iron_condor c vix pcr = .sig (mkSignal c vix pcr atm) := by
  unfold build_iron_condor
  rw [if_neg (not_lt.mpr h1), if_neg (not_lt.mpr h2), hatm]
  dsimp only
  rw [if_neg (not_or.mpr ⟨not_lt.mpr h3, not_lt.mpr h4⟩)]
  rw [if_neg (not_lt.mpr h5), if_neg (not_lt.mpr h6), if_neg (not_lt.mpr h7)]

theorem ltp_eq_cePremAt (c : Chain) (k : ℚ) : ltp c.strikes k true = cePremAt c k := by
  unfold ltp cePremAt get_strike_data
  cases c.strikes.find? (fun s => s.strike = k) <;> simp

theorem ltp_eq_pePremAt (c : Chain) (k : ℚ) : ltp c.strikes k false = pePremAt c k := by
  unfold ltp pePremAt get_strike_data
  cases c.strikes.find? (fun s => s.strike = k) <;> simp

/-! ## Claims -/

/-- C1: for every snapshot and put-call ratio, volatility above 18 or below 10
makes `build_iron_condor` return the corresponding descriptive skip and never a
Signal; the gate fires for an arbitrary chain (even an empty ladder), i.e.
before any other gate is consulted. -/
theorem C1_volatility_gate (c : Chain) (vix pcr : ℚ) :
    (MAX_VIX < vix → build_iron_condor c vix pcr = .skip (.vixTooHigh vix)) ∧
    (vix < MIN_VIX → build_iron_condor c vix pcr = .skip (.vixTooLow vix)) ∧
    (MAX_VIX < vix ∨ vix < MIN_VIX → ∀ s, build_iron_condor c vix pcr ≠ .sig s) := by
  have hhi : MAX_VIX < vix → build_iron_condor c vix pcr = .skip (.vixTooHigh vix) := by
    intro h
    unfold build_iron_condor
    rw [if_pos h]
  have hlo : vix < MIN_VIX → build_iron_condor c vix pcr = .skip (.vixTooLow vix) := by
    intro h
    unfold build_iron_condor
    have : ¬ MAX_VIX < vix := by
      simp only [MAX_VIX, MIN_VIX] at *
      linarith
    rw [if_neg this, if_pos h]
  refine ⟨hhi, hlo, ?_⟩
  rintro (h | h) s
  · rw [hhi h]
    simp
  · rw [hlo h]
    simp

/-- C1 witness: with an empty ladder and volatility 20 the evaluator skips with
the too-high reason (so the volatility gate precedes the ladder gates). -/
theorem C1_volatility_gate_witness :
    build_iron_condor chEmptyW 20 1 = .skip (.vixTooHigh 20) :=
  (C1_volatility_gate chEmptyW 20 1).1 (by norm_num [MAX_VIX])

/-- C2: the exit decision applies the rules in strict priority order: at or
after the 15:15 cutoff the result is the time-based exit regardless of the
premium; otherwise target-hit when `current_premium ≤ target_exit`; otherwise
stop-loss when `current_premium ≥ stop_loss`; otherwise hold. -/
theorem C2_exit_priority (c : Chain) (pos : PositionRec) (now : ℕ) :
    (CUTOFF_MICROS ≤ now → run_exit_decision c pos now = .timeExit) ∧
    (now < CUTOFF_MICROS → get_current_premium c pos ≤ pos.target_exit →
      run_exit_decision c pos now = .targetHit) ∧
    (now < CUTOFF_MICROS → pos.target_exit < get_current_premium c pos →
      pos.stop_loss ≤ get_current_premium c pos →
      run_exit_decision c pos now = .stopLossHit) ∧
    (now < CUTOFF_MICROS → pos.target_exit < get_current_premium c pos →
      get_current_premium c pos < pos.stop_loss →
      run_exit_decision c pos now = .hold) := by
  refine ⟨?_, ?_, ?_, ?_⟩
  · intro h
    simp [run_exit_decision, force_exit, h]
  · intro h hp
    have hf : force_exit now = false := by
      simp [force_exit]
      omega
    simp [run_exit_decision, hf, if_pos hp]
  · intro h hp hs
    have hf : force_exit now = false := by
      simp [force_exit]
      omega
    simp [run_exit_decision, hf, if_neg (not_le.mpr hp), if_pos hs]
  · intro h hp hs
    have hf : force_exit now = false := by
      simp [force_exit]
      omega
    simp [run_exit_decision, hf, if_neg (not_le.mpr hp), if_neg (not_le.mpr hs)]

/-- C2 witness: a position whose target (100) and stop-loss (5) are both
satisfied at the current premium 50, checked exactly at the cutoff: the
decision is the time-based exit, not target or stop-loss. -/
theorem C2_exit_priority_witness :
    run_exit_decision chPrem posBoth CUTOFF_MICROS = .timeExit ∧
    get_current_premium chPrem posBoth ≤ posBoth.target_exit ∧
    posBoth.stop_loss ≤ get_current_premium chPrem posBoth :=
  ⟨(C2_exit_priority chPrem posBoth CUTOFF_MICROS).1 (le_refl _),
   by with_unfolding_all decide, by with_unfolding_all decide⟩

/-- C6 counterexample: on a corrupt slot `load_position` raises the JSON
decode error instead of returning absent, refuting "corruption is treated
exactly like absence ... never raises". -/
theorem C6_load_counterexample :
    load_position (some .corrupt) = .error .jsonDecodeError ∧
    load_position (some .corrupt) ≠ .ok none := by
  exact ⟨rfl, by simp [load_position]⟩

/-- C6 amended: `load_position` returns absent, without raising, exactly when
the slot is missing; a present-but-corrupt slot raises the decode error to the
caller (only `FileNotFoundError` is caught). -/
theorem C6_load_behavior :
    load_position none = .ok none ∧
    (∀ p, load_position (some (.valid p)) = .ok (some p)) ∧
    load_position (some .corrupt) = .error .jsonDecodeError := by
  exact ⟨rfl, fun p => rfl, rfl⟩

/-- C7: `clear_position` is idempotent: from any slot state it succeeds and
empties the slot; clearing the already-empty slot again succeeds, and
`load_position` returns absent after either clear. -/
theorem C7_clear_idempotent (slot : Slot) :
    clear_position slot = .ok none ∧
    clear_position (none : Slot) = .ok none ∧
    load_position (none : Slot) = .ok none := by
  exact ⟨rfl, rfl, rfl⟩

/-- C8: two chains identical except for their `source` provenance tag produce
identical evaluator results: `build_iron_condor` never reads the tag. -/
theorem C8_provenance_noninterference (spot : ℚ) (expiry : String)
    (strikes : List StrikeQuote) (src₁ src₂ : String) (vix pcr : ℚ) :
    build_iron_condor ⟨spot, expiry, strikes, src₁⟩ vix pcr
      = build_iron_condor ⟨spot, expiry, strikes, src₂⟩ vix pcr := rfl

/-- C9: whenever the volatility, strike-selection and both wing gates pass but
the net premium is below 40, the evaluator skips with the net-premium reason
(and not a wing reason or a Signal). -/
theorem C9_net_premium_gate (c : Chain) (vix pcr atm : ℚ)
    (h1 : vix ≤ MAX_VIX) (h2 : MIN_VIX ≤ vix)
    (hatm : find_atm c.spot c.strikes = some atm)
    (h3 : 2 ≤ atmIdxOf c atm)
    (h4 : atmIdxOf c atm ≤ ((availableOf c).length : ℤ) - 3)
    (h5 : MIN_WING_PREM ≤ sellCePremOf c atm)
    (h6 : MIN_WING_PREM ≤ sellPePremOf c atm)
    (h7 : netPremiumOf c atm < MIN_NET_PREMIUM) :
    build_iron_condor c vix pcr = .skip (.netPremiumTooLow (netPremiumOf c atm)) := by
  unfold build_iron_condor
  rw [if_neg (not_lt.mpr h1), if_neg (not_lt.mpr h2), hatm]
  dsimp only
  rw [if_neg (not_or.mpr ⟨not_lt.mpr h3, not_lt.mpr h4⟩)]
  rw [if_neg (not_lt.mpr h5), if_neg (not_lt.mpr h6), if_pos h7]

/-- C9 witness: sold-call premium 20, bought-call 5, sold-put 22, bought-put 6
on a step-50 ladder: both wings pass the 15 gate, the net premium is 31 and the
evaluator skips with the net-premium-too-low reason. -/
theorem C9_net_premium_gate_witness :
    build_iron_condor chNetLow 14 1 = .skip (.netPremiumTooLow 31) := by
  have h := C9_net_premium_gate chNetLow 14 1 400
    (by norm_num [MAX_VIX]) (by norm_num [MIN_VIX])
    (by with_unfolding_all decide) (by with_unfolding_all decide)
    (by with_unfolding_all decide) (by with_unfolding_all decide)
    (by with_unfolding_all decide) (by with_unfolding_all decide)
  have h31 : netPremiumOf chNetLow 400 = 31 := by with_unfolding_all decide
  rw [h31] at h
  exact h

/-- C10: every Signal satisfies `0 < target_exit < net_premium < stop_loss`;
moreover `stop_loss` is exactly twice `net_premium` (rounding `net × 2` at two
decimals is the identity, since `net` itself has two decimals) and
`net_premium ≥ 40`, so the monitor's thresholds always bracket the entry
premium. -/
theorem C10_thresholds_bracket (c : Chain) (vix pcr : ℚ) (s : IronCondorSignal)
    (h : build_iron_condor c vix pcr = .sig s) :
    0 < s.target_exit ∧ s.target_exit < s.net_premium ∧
    s.net_premium < s.stop_loss ∧ s.stop_loss = 2 * s.net_premium ∧
    MIN_NET_PREMIUM ≤ s.net_premium := by
  obtain ⟨atm, -, -, -, -, -, -, -, hnet, hs⟩ := build_sig_inv h
  subst hs
  have hfields :
      (mkSignal c vix pcr atm).net_premium = netPremiumOf c atm ∧
      (mkSignal c vix pcr atm).target_exit = round2 (netPremiumOf c atm * (2/5)) ∧
      (mkSignal c vix pcr atm).stop_loss = round2 (netPremiumOf c atm * 2) := by
    refine ⟨rfl, rfl, rfl⟩
  obtain ⟨hf1, hf2, hf3⟩ := hfields
  set net := netPremiumOf c atm with hdefnet
  have h40 : (40 : ℚ) ≤ net := by simpa [MIN_NET_PREMIUM] using hnet
  obtain ⟨k, hk⟩ : ∃ k : ℤ, net = (k : ℚ) / 100 := round2_num _
  have hstop : round2 (net * 2) = net * 2 := by
    refine round2_intMul (n := 2 * k) ?_
    rw [hk]
    push_cast
    ring
  have htb := round2_bounds (net * (2/5))
  rw [abs_le] at htb
  refine ⟨?_, ?_, ?_, ?_, ?_⟩
  · rw [hf2]
    linarith [htb.1]
  · rw [hf2, hf1]
    linarith [htb.2]
  · rw [hf1, hf3, hstop]
    linarith
  · rw [hf1, hf3, hstop]
    ring
  · rw [hf1]
    exact hnet

/-- C10 witness: the rich-premium chain yields a Signal with net premium 71,
whose thresholds satisfy the bracket `0 < target < net < stop`. -/
theorem C10_thresholds_bracket_witness :
    0 < (mkSignal chRich 14 1 400).target_exit ∧
    (mkSignal chRich 14 1 400).target_exit < (mkSignal chRich 14 1 400).net_premium ∧
    (mkSignal chRich 14 1 400).net_premium < (mkSignal chRich 14 1 400).stop_loss ∧
    (mkSignal chRich 14 1 400).stop_loss = 2 * (mkSignal chRich 14 1 400).net_premium ∧
    MIN_NET_PREMIUM ≤ (mkSignal chRich 14 1 400).net_premium :=
  C10_thresholds_bracket chRich 14 1 (mkSignal chRich 14 1 400)
    (build_sig_intro chRich 14 1 400
      (by norm_num [MAX_VIX]) (by norm_num [MIN_VIX])
      (by with_unfolding_all decide) (by with_unfolding_all decide)
      (by with_unfolding_all decide) (by with_unfolding_all decide)
      (by with_unfolding_all decide) (by with_unfolding_all decide))

/-- C3 counterexample: a Signal produced from a ladder whose sold-call strike
is 225 (not a multiple of 50) has `buy_call_strike − sell_call_strike = 75`,
not the configured spread width 100, because the bought strike is rounded to
the nearest 50-point increment. -/
theorem C3_spread_counterexample :
    (build_iron_condor chOff 14 1).getSig.map
        (fun s => (s.buy_ce_strike - s.sell_ce_strike,
                   s.sell_pe_strike - s.buy_pe_strike))
      = some (75, 100) ∧
    ((75 : ℚ), (100 : ℚ)) ≠ ((100 : ℚ), (100 : ℚ)) := by
  constructor
  · rw [build_sig_intro chOff 14 1 200
      (by norm_num [MAX_VIX]) (by norm_num [MIN_VIX])
      (by with_unfolding_all decide) (by with_unfolding_all decide)
      (by with_unfolding_all decide) (by with_unfolding_all decide)
      (by with_unfolding_all decide) (by with_unfolding_all decide)]
    with_unfolding_all decide
  · simp

/-- C3 amended: in every Signal the bought strikes are
`round_to_strike(sold ± SPREAD_WIDTH)`; whenever a sold strike is itself a
multiple of the 50-point increment the corresponding side's distance equals the
spread width exactly. -/
theorem C3_spread_construction (c : Chain) (vix pcr : ℚ) (s : IronCondorSignal)
    (h : build_iron_condor c vix pcr = .sig s) :
    s.buy_ce_strike = ((round_to_strike (s.sell_ce_strike + (SPREAD_WIDTH : ℚ)) : ℤ) : ℚ) ∧
    s.buy_pe_strike = ((round_to_strike (s.sell_pe_strike - (SPREAD_WIDTH : ℚ)) : ℤ) : ℚ) ∧
    (∀ j : ℤ, s.sell_ce_strike = 50 * j →
      s.buy_ce_strike - s.sell_ce_strike = (SPREAD_WIDTH : ℚ)) ∧
    (∀ j : ℤ, s.sell_pe_strike = 50 * j →
      s.sell_pe_strike - s.buy_pe_strike = (SPREAD_WIDTH : ℚ)) := by
  obtain ⟨atm, -, -, -, -, -, -, -, -, hs⟩ := build_sig_inv h
  subst hs
  have hce : (mkSignal c vix pcr atm).buy_ce_strike
      = ((round_to_strike ((mkSignal c vix pcr atm).sell_ce_strike + (SPREAD_WIDTH : ℚ)) : ℤ) : ℚ) := rfl
  have hpe : (mkSignal c vix pcr atm).buy_pe_strike
      = ((round_to_strike ((mkSignal c vix pcr atm).sell_pe_strike - (SPREAD_WIDTH : ℚ)) : ℤ) : ℚ) := rfl
  refine ⟨hce, hpe, ?_, ?_⟩
  · intro j hj
    rw [hce, hj]
    have harg : (50 * (j : ℚ) + (SPREAD_WIDTH : ℚ)) / (50 : ℤ) = ((j + 2 : ℤ) : ℚ) := by
      simp only [SPREAD_WIDTH]
      push_cast
      ring
    unfold round_to_strike
    rw [harg, rhe_intCast]
    simp only [SPREAD_WIDTH]
    push_cast
    ring
  · intro j hj
    rw [hpe, hj]
    have harg : (50 * (j : ℚ) - (SPREAD_WIDTH : ℚ)) / (50 : ℤ) = ((j - 2 : ℤ) : ℚ) := by
      simp only [SPREAD_WIDTH]
      push_cast
      ring
    unfold round_to_strike
    rw [harg, rhe_intCast]
    simp only [SPREAD_WIDTH]
    push_cast
    ring

/-- C3 witness: on the all-multiples-of-50 rich chain, both spreads equal the
configured 100-point width (sold strikes 450 = 50·9 and 350 = 50·7). -/
theorem C3_spread_construction_witness :
    (mkSignal chRich 14 1 400).buy_ce_strike - (mkSignal chRich 14 1 400).sell_ce_strike
      = (SPREAD_WIDTH : ℚ) ∧
    (mkSignal chRich 14 1 400).sell_pe_strike - (mkSignal chRich 14 1 400).buy_pe_strike
      = (SPREAD_WIDTH : ℚ) := by
  have h := C3_spread_construction chRich 14 1 (mkSignal chRich 14 1 400)
    (build_sig_intro chRich 14 1 400
      (by norm_num [MAX_VIX]) (by norm_num [MIN_VIX])
      (by with_unfolding_all decide) (by with_unfolding_all decide)
      (by with_unfolding_all decide) (by with_unfolding_all decide)
      (by with_unfolding_all decide) (by with_unfolding_all decide))
  exact ⟨h.2.2.1 9 (by with_unfolding_all decide),
         h.2.2.2 7 (by with_unfolding_all decide)⟩

/-- C4: round-trip stability: re-pricing a persisted Signal's four strikes
against the same snapshot with the monitor's premium computation returns
exactly the Signal's `net_premium`. -/
theorem C4_roundtrip (c : Chain) (vix pcr : ℚ) (s : IronCondorSignal)
    (e : String) (h : build_iron_condor c vix pcr = .sig s) :
    get_current_premium c (save_position s e) = s.net_premium := by
  obtain ⟨atm, -, -, -, -, -, -, -, -, hs⟩ := build_sig_inv h
  subst hs
  unfold get_current_premium save_position
  rw [ltp_eq_cePremAt, ltp_eq_cePremAt, ltp_eq_pePremAt, ltp_eq_pePremAt]
  rfl

/-- C4 witness: on the rich chain the monitor re-prices the persisted
position to exactly the Signal's net premium. -/
theorem C4_roundtrip_witness :
    get_current_premium chRich (save_position (mkSignal chRich 14 1 400) "E")
      = (mkSignal chRich 14 1 400).net_premium :=
  C4_roundtrip chRich 14 1 (mkSignal chRich 14 1 400) "E"
    (build_sig_intro chRich 14 1 400
      (by norm_num [MAX_VIX]) (by norm_num [MIN_VIX])
      (by with_unfolding_all decide) (by with_unfolding_all decide)
      (by with_unfolding_all decide) (by with_unfolding_all decide)
      (by with_unfolding_all decide) (by with_unfolding_all decide))

/-- C5: on a strictly ascending ladder the strike returned by `find_max_pain`
belongs to the ladder, no ladder strike has strictly smaller aggregate writer
loss, and ties are resolved in favour of the earliest (smallest) strike. -/
theorem C5_max_pain_minimizes (strikes : List StrikeQuote) (T : ℚ)
    (hfind : find_max_pain strikes = some T)
    (hsort : (strikes.map (·.strike)).Pairwise (· < ·)) :
    T ∈ strikes.map (·.strike) ∧
    (∀ k ∈ strikes.map (·.strike), painLoss strikes T ≤ painLoss strikes k) ∧
    (∀ k ∈ strikes.map (·.strike), painLoss strikes k = painLoss strikes T → T ≤ k) := by
  unfold find_max_pain at hfind
  obtain ⟨hmem, hmin, l₁, l₂, heq, hpre⟩ := argminFirst_spec _ _ _ hfind
  refine ⟨hmem, hmin, ?_⟩
  intro k hk hkeq
  rw [heq] at hk hsort
  rcases List.mem_append.mp hk with hk1 | hk2
  · exact absurd hkeq (ne_of_gt (hpre k hk1))
  rcases List.mem_cons.mp hk2 with rfl | hk3
  · exact le_refl _
  · have hp2 := (List.pairwise_append.mp hsort).2.1
    exact le_of_lt ((List.pairwise_cons.mp hp2).1 k hk3)

/-- C5 witness: on the two-strike tie ladder (both losses 200) the max-pain
strike is a ladder member, minimizes the loss against strike 200, and the
tie resolves to the earlier strike 100. -/
theorem C5_max_pain_minimizes_witness :
    (100 : ℚ) ∈ tieLadder.map (·.strike) ∧
    painLoss tieLadder 100 ≤ painLoss tieLadder 200 ∧
    (100 : ℚ) ≤ 200 := by
  have h := C5_max_pain_minimizes tieLadder 100
    (by with_unfolding_all decide) (by with_unfolding_all decide)
  exact ⟨h.1, h.2.1 200 (by with_unfolding_all decide),
         h.2.2 200 (by with_unfolding_all decide) (by with_unfolding_all decide)⟩

end NiftyBot
